import Mathlib

/-!
Shallow embedding of `src/mcp_server.py` (an MCP server exposing registered
HTTP APIs as tools).  Python dictionaries are modelled as insertion-ordered
association lists, Python `Any`-valued JSON-like data as the `Json` inductive,
stateful registration as explicit state passing on `ManagerState`, and the
network (httpx) as a function from the resolved request to an abstract
`HTTPOutcome`.  Fallible Python code (raising `ValueError`) is modelled with
`Except String`.
-/

namespace MCPApi

/-- JSON-like values, modelling the Python `Any` payloads that flow through the
server (endpoint-config dicts, request bodies, parsed response bodies).  A raw
response text is represented as `Json.str` (matching how `json.dumps` later
treats a Python `str`). -/
inductive Json where
  | null : Json
  | bool (b : Bool) : Json
  | num (n : Int) : Json
  | str (s : String) : Json
  | arr (items : List Json) : Json
  | obj (fields : List (String × Json)) : Json

/-- Lookup in an insertion-ordered association list; models Python
`d[k]` / `d.get(k)` on a dict (dicts never hold duplicate keys, so taking the
first match is faithful). -/
def alookup {α : Type} : List (String × α) → String → Option α
  | [], _ => none
  | (k', v) :: rest, k => if k' = k then some v else alookup rest k

/-- Models Python `d[k] = v` on a dict: replace the value in place if the key
exists, else append the new entry (insertion order preserved). -/
def alistInsert {α : Type} : List (String × α) → String → α → List (String × α)
  | [], k, v => [(k, v)]
  | p :: rest, k, v => if p.1 = k then (k, v) :: rest else p :: alistInsert rest k v

/-- Models Python `d.update(m)`: insert every entry of `m` into `d`, left to
right, later entries overwriting earlier same-key entries. -/
def alistUpdate {α : Type} (d m : List (String × α)) : List (String × α) :=
  m.foldl (fun acc p => alistInsert acc p.1 p.2) d

/-- First-some choice on options, used to state lookup-precedence results. -/
def oOr {α : Type} : Option α → Option α → Option α
  | some a, _ => some a
  | none, b => b

/-- An association list has pairwise-distinct keys (true of every list that
models a Python dict). -/
def NodupKeys {α : Type} (l : List (String × α)) : Prop :=
  (l.map Prod.fst).Nodup

/-- Configuration for one API, translated from the pydantic model
`APIEndpoint` (src/mcp_server.py lines 25-31).  Each endpoint spec is a raw
JSON-like dict (`Dict[str, Dict[str, Any]]` in the source). -/
structure APIEndpoint where
  name : String
  base_url : String
  endpoints : List (String × List (String × Json))
  headers : Option (List (String × String)) := none
  auth_token : Option String := none

/-- The registry held in `APIManager.apis`. -/
abbrev Registry : Type := List (String × APIEndpoint)

/-- The mutable state of `APIManager` that the handlers can observe: the
mapping from API names to definitions (src/mcp_server.py line 37). -/
structure ManagerState where
  apis : Registry

/-- Translation of `APIManager.register_api` (src/mcp_server.py lines 40-43):
`self.apis[api_config.name] = api_config`. -/
def register_api (st : ManagerState) (api_config : APIEndpoint) : ManagerState :=
  ⟨alistInsert st.apis api_config.name api_config⟩

/-- Splits a character list at the first occurrence of `sep`; `none` when
`sep` does not occur.  Together with the `String` wrapper below this models
Python `name.split(sep, 1)` after the `sep in name` membership test. -/
def splitFirstAux (sep : Char) : List Char → Option (List Char × List Char)
  | [] => none
  | c :: cs =>
    if c = sep then some ([], cs)
    else (splitFirstAux sep cs).map fun p => (c :: p.1, p.2)

/-- Models the pair `("_" in name, name.split("_", 1))` used by the dispatcher
(src/mcp_server.py lines 253-256): `some (a, e)` when the separator occurs,
splitting at its first occurrence. -/
def splitFirst (s : String) (sep : Char) : Option (String × String) :=
  (splitFirstAux sep s.data).map fun p => (String.mk p.1, String.mk p.2)

/-- Splits a character list on every occurrence of `sep`; models Python
`s.split(sep)` for a one-character separator (`"".split(sep) == [""]`). -/
def splitOnChar (sep : Char) : List Char → List (List Char)
  | [] => [[]]
  | c :: cs =>
    if c = sep then [] :: splitOnChar sep cs
    else
      match splitOnChar sep cs with
      | [] => [[c]]
      | p :: ps => (c :: p) :: ps

/-- Models Python `sep.join(parts)` for a one-character separator. -/
def joinChar (sep : Char) : List (List Char) → List Char
  | [] => []
  | [p] => p
  | p :: ps => p ++ sep :: joinChar sep ps

/-- The dot-segment loop of `urllib.parse.urljoin`: `".."` pops the previous
resolved segment (ignoring underflow), `"."` is dropped, and a trailing dot
segment contributes a final empty segment. -/
def removeDotsAux : List (List Char) → List (List Char) → List (List Char)
  | acc, [] => acc
  | acc, seg :: rest =>
    if seg = ['.', '.'] then removeDotsAux acc.dropLast rest
    else if seg = ['.'] then removeDotsAux acc rest
    else removeDotsAux (acc ++ [seg]) rest

/-- Dot-segment removal over split path segments, as in `urllib.parse.urljoin`. -/
def removeDots (segs : List (List Char)) : List (List Char) :=
  let r := removeDotsAux [] segs
  if segs.getLast? = some ['.'] ∨ segs.getLast? = some ['.', '.'] then r ++ [[]] else r

/-- Splits `scheme://rest` at the first `"://"`; models the scheme/authority
split that `urllib.parse.urlsplit` performs on the absolute base URLs this
server is configured with. -/
def splitScheme : List Char → Option (List Char × List Char)
  | [] => none
  | c :: cs =>
    if c = ':' ∧ cs.take 2 = ['/', '/'] then some ([], cs.drop 2)
    else (splitScheme cs).map fun p => (c :: p.1, p.2)

/-- Splits the part after `"://"` into the authority (up to the first `/`)
and the path (starting with `/`, or empty). -/
def splitNetloc : List Char → List Char × List Char
  | [] => ([], [])
  | c :: cs =>
    if c = '/' then ([], c :: cs)
    else
      let p := splitNetloc cs
      (c :: p.1, p.2)

/-- The segment list `urllib.parse.urljoin` resolves: a `rel` starting with
`/` supplies the whole path; otherwise `rel`'s segments are appended to the
base path's segments with the last (non-empty) one dropped, and empty middle
segments filtered out. -/
def joinSegments (bpath rel : List Char) : List (List Char) :=
  if rel.head? = some '/' then splitOnChar '/' rel
  else
    match (if (splitOnChar '/' bpath).getLast? = some [] then splitOnChar '/' bpath
           else (splitOnChar '/' bpath).dropLast) ++ splitOnChar '/' rel with
    | [] => []
    | first :: restSegs =>
      first :: ((restSegs.dropLast.filter fun s => !s.isEmpty) ++ restSegs.getLast?.toList)

/-- The resolved path: dot segments removed, segments re-joined with `/`, and
an empty result rendered as `/` (the `'/'.join(resolved) or '/'` step). -/
def pathJoined (bpath rel : List Char) : List Char :=
  let joined := joinChar '/' (removeDots (joinSegments bpath rel))
  if joined = [] then ['/'] else joined

/-- Recomposition once base scheme, authority and path are known: an empty
`rel` keeps the base unchanged, otherwise `scheme://netloc` is glued to the
resolved path. -/
def urljoinResolved (scheme netloc bpath base rel : List Char) : List Char :=
  if rel = [] then base
  else scheme ++ ':' :: '/' :: '/' :: netloc ++ pathJoined bpath rel

/-- Character-level model of `urllib.parse.urljoin base rel` for the shapes the
server uses: `base` an absolute `scheme://netloc[/path]` URL and `rel` a
(possibly empty) reference carrying no scheme, query or fragment of its own.
Mirrors the CPython algorithm, including network-path references: a `rel`
starting with `//` supplies its own authority (everything up to the next `/`),
which when non-empty replaces the base's authority with `rel`'s path attached
verbatim; when that authority is empty (`//`, `///x`) CPython keeps the base
authority and resolves the remaining path as usual. -/
def urljoinChars (base rel : List Char) : List Char :=
  match splitScheme base with
  | none => rel
  | some sr =>
    if rel.take 2 = ['/', '/'] then
      let rn := splitNetloc (rel.drop 2)
      if rn.1 = [] then
        urljoinResolved sr.1 (splitNetloc sr.2).1 (splitNetloc sr.2).2 base rn.2
      else sr.1 ++ ':' :: '/' :: '/' :: rn.1 ++ rn.2
    else urljoinResolved sr.1 (splitNetloc sr.2).1 (splitNetloc sr.2).2 base rel

/-- String-level wrapper: the `urljoin` used at src/mcp_server.py line 57. -/
def urljoin (base rel : String) : String :=
  String.mk (urljoinChars base.data rel.data)

theorem alookup_insert {α : Type} (d : List (String × α)) (k0 k : String) (v : α) :
    alookup (alistInsert d k0 v) k = if k = k0 then some v else alookup d k := by
  induction d with
  | nil =>
    simp only [alistInsert, alookup]
    by_cases h : k = k0
    · rw [if_pos h.symm, if_pos h]
    · rw [if_neg (fun h' => h h'.symm), if_neg h]
  | cons p rest ih =>
    simp only [alistInsert]
    by_cases hp : p.1 = k0
    · rw [if_pos hp]
      simp only [alookup]
      by_cases h : k = k0
      · rw [if_pos h.symm, if_pos h]
      · have h1 : ¬ (k0 = k) := fun h' => h h'.symm
        have h2 : ¬ (p.1 = k) := fun h' => h (hp ▸ h' : k0 = k).symm
        rw [if_neg h1, if_neg h, if_neg h2]
    · rw [if_neg hp]
      simp only [alookup]
      by_cases hq : p.1 = k
      · have h1 : ¬ (k = k0) := fun h => hp (hq.trans h)
        rw [if_pos hq, if_neg h1, if_pos hq]
      · rw [if_neg hq, ih]
        by_cases h : k = k0
        · rw [if_pos h, if_pos h]
        · rw [if_neg h, if_neg h, if_neg hq]

theorem alookup_eq_none_of_not_mem {α : Type} (m : List (String × α)) (k : String)
    (h : k ∉ m.map Prod.fst) : alookup m k = none := by
  induction m with
  | nil => rfl
  | cons p rest ih =>
    simp only [List.map_cons, List.mem_cons] at h
    push_neg at h
    simp only [alookup]
    rw [if_neg (fun h' => h.1 h'.symm)]
    exact ih h.2

theorem alookup_update {α : Type} (m : List (String × α)) :
    ∀ d : List (String × α), NodupKeys m →
      ∀ k, alookup (alistUpdate d m) k = oOr (alookup m k) (alookup d k) := by
  induction m with
  | nil => intro d _ k; simp [alistUpdate, alookup, oOr]
  | cons p rest ih =>
    intro d hnodup k
    simp only [NodupKeys, List.map_cons, List.nodup_cons] at hnodup
    have hnodup' : NodupKeys rest := hnodup.2
    have hnotmem : p.1 ∉ rest.map Prod.fst := hnodup.1
    have hstep : alistUpdate d (p :: rest) = alistUpdate (alistInsert d p.1 p.2) rest := rfl
    rw [hstep, ih (alistInsert d p.1 p.2) hnodup' k, alookup_insert]
    simp only [alookup]
    by_cases h : k = p.1
    · subst h
      rw [alookup_eq_none_of_not_mem rest p.1 hnotmem, if_pos rfl]
      simp [oOr]
    · have h2 : ¬ (p.1 = k) := fun h' => h h'.symm
      rw [if_neg h, if_neg h2]

theorem alookup_map_value {α β : Type} (f : α → β) (l : List (String × α)) (k : String) :
    alookup (l.map fun p => (p.1, f p.2)) k = (alookup l k).map f := by
  induction l with
  | nil => rfl
  | cons p rest ih =>
    simp only [List.map_cons, alookup]
    by_cases h : p.1 = k
    · simp [h]
    · simp [h, ih]

theorem nodupKeys_map_value {α β : Type} (f : α → β) (l : List (String × α))
    (h : NodupKeys l) : NodupKeys (l.map fun p => (p.1, f p.2)) := by
  unfold NodupKeys at h ⊢
  simpa [List.map_map, Function.comp] using h

theorem splitFirstAux_roundtrip (a e : List Char) (ha : '_' ∉ a) :
    splitFirstAux '_' (a ++ '_' :: e) = some (a, e) := by
  induction a with
  | nil => simp [splitFirstAux]
  | cons c cs ih =>
    have hc : c ≠ '_' := fun h => ha (h ▸ List.mem_cons_self c cs)
    have hcs : '_' ∉ cs := fun h => ha (List.mem_cons_of_mem c h)
    simp [splitFirstAux, hc, ih hcs]

theorem splitFirstAux_eq_none (l : List Char) (h : '_' ∉ l) :
    splitFirstAux '_' l = none := by
  induction l with
  | nil => rfl
  | cons c cs ih =>
    have hc : c ≠ '_' := fun h' => h (h' ▸ List.mem_cons_self c cs)
    have hcs : '_' ∉ cs := fun h' => h (List.mem_cons_of_mem c h')
    simp [splitFirstAux, hc, ih hcs]

theorem string_mk_data (s : String) : String.mk s.data = s := rfl

theorem splitOnChar_append (sep : Char) (n rest : List Char) (h : sep ∉ n) :
    splitOnChar sep (n ++ sep :: rest) = n :: splitOnChar sep rest := by
  induction n with
  | nil => simp [splitOnChar]
  | cons c ns ih =>
    have hc : ¬ (c = sep) := fun h' => h (h' ▸ List.mem_cons_self c ns)
    have hns : sep ∉ ns := fun h' => h (List.mem_cons_of_mem c h')
    show splitOnChar sep (c :: (ns ++ sep :: rest)) = (c :: ns) :: splitOnChar sep rest
    simp only [splitOnChar, if_neg hc, ih hns]

theorem splitOnChar_no_sep (sep : Char) (l : List Char) (h : sep ∉ l) :
    splitOnChar sep l = [l] := by
  induction l with
  | nil => rfl
  | cons c cs ih =>
    have hc : ¬ (c = sep) := fun h' => h (h' ▸ List.mem_cons_self c cs)
    have hcs : sep ∉ cs := fun h' => h (List.mem_cons_of_mem c h')
    simp only [splitOnChar, if_neg hc, ih hcs]

theorem getLast_app {α : Type} (l₁ l₂ : List α) (h : l₂ ≠ []) :
    (l₁ ++ l₂).getLast? = l₂.getLast? := by
  induction l₁ with
  | nil => rfl
  | cons c cs ih =>
    rcases hcc : cs ++ l₂ with _ | ⟨b, bl⟩
    · rcases List.append_eq_nil.mp hcc with ⟨h1, h2⟩
      exact absurd h2 h
    · show (c :: (cs ++ l₂)).getLast? = l₂.getLast?
      rw [hcc, List.getLast?_cons_cons, ← hcc, ih]

/-- Concrete checks that the model reproduces `urllib.parse.urljoin` on
network-path references (authority in the reference replaces the base
authority; an empty reference authority keeps the base one). -/
theorem urljoin_netloc_checks :
    urljoin "https://api.example.com/v1" "//host2/x" = "https://host2/x"
      ∧ urljoin "https://api.example.com/v1" "//host2" = "https://host2"
      ∧ urljoin "https://api.example.com/v1" "//" = "https://api.example.com/v1"
      ∧ urljoin "https://api.example.com/v1" "///x" = "https://api.example.com/x" :=
  ⟨by decide, by decide, by decide, by decide⟩

theorem splitFirst_roundtrip (a e : String) (ha : '_' ∉ a.data) :
    splitFirst (a ++ "_" ++ e) '_' = some (a, e) := by
  unfold splitFirst
  have hdata : (a ++ "_" ++ e).data = a.data ++ '_' :: e.data := by
    simp [String.data_append]
  rw [hdata, splitFirstAux_roundtrip a.data e.data ha]
  simp [string_mk_data]

theorem splitFirst_eq_none (s : String) (h : '_' ∉ s.data) :
    splitFirst s '_' = none := by
  unfold splitFirst
  rw [splitFirstAux_eq_none s.data h]
  rfl

/-- Indentation: `n` spaces. -/
def spaces (n : Nat) : String := String.mk (List.replicate n ' ')

/-- Lower-case hex digit, as used by `json.dumps`'s `\uXXXX` escapes. -/
def hexDigit (n : Nat) : Char :=
  if n < 10 then Char.ofNat (48 + n) else Char.ofNat (87 + n)

/-- A `\uXXXX` escape for a code unit below 0x10000. -/
def uEscape (n : Nat) : String :=
  String.mk ['\\', 'u', hexDigit (n / 4096 % 16), hexDigit (n / 256 % 16),
             hexDigit (n / 16 % 16), hexDigit (n % 16)]

/-- JSON string escaping for one character, as `json.dumps` does with its
default `ensure_ascii=True`: quote, backslash and the five short control
escapes; every other character outside printable ASCII (0x20-0x7e) becomes
`\uXXXX`, with a surrogate pair for code points above 0xFFFF. -/
def quoteChar (c : Char) : String :=
  if c = '"' then "\\\""
  else if c = '\\' then "\\\\"
  else if c = '\x08' then "\\b"
  else if c = '\x0c' then "\\f"
  else if c = '\n' then "\\n"
  else if c = '\r' then "\\r"
  else if c = '\t' then "\\t"
  else if 32 ≤ c.toNat ∧ c.toNat ≤ 126 then String.singleton c
  else if c.toNat < 65536 then uEscape c.toNat
  else uEscape (55296 + (c.toNat - 65536) / 1024) ++ uEscape (56320 + (c.toNat - 65536) % 1024)

/-- JSON rendering of a string literal. -/
def quoteStr (s : String) : String :=
  "\"" ++ String.join (s.data.map quoteChar) ++ "\""

mutual

/-- Model of Python `json.dumps(v, indent=2)` at indentation level `ind`:
objects and arrays open with a newline, render one member per line indented
two further spaces, and close on a fresh line at the current indentation;
empty containers render as `\x7b\x7d` / `[]`. -/
def dumpJson : Nat → Json → String
  | _, Json.null => "null"
  | _, Json.bool true => "true"
  | _, Json.bool false => "false"
  | _, Json.num n => toString n
  | _, Json.str s => quoteStr s
  | _, Json.arr [] => "[]"
  | ind, Json.arr (x :: xs) =>
    "[\n" ++ dumpItems (ind + 2) (x :: xs) ++ "\n" ++ spaces ind ++ "]"
  | _, Json.obj [] => "\x7b\x7d"
  | ind, Json.obj (f :: fs) =>
    "\x7b\n" ++ dumpFields (ind + 2) (f :: fs) ++ "\n" ++ spaces ind ++ "\x7d"

/-- Renders array items, one per line, comma separated. -/
def dumpItems : Nat → List Json → String
  | _, [] => ""
  | ind, [x] => spaces ind ++ dumpJson ind x
  | ind, x :: y :: xs =>
    spaces ind ++ dumpJson ind x ++ ",\n" ++ dumpItems ind (y :: xs)

/-- Renders object members, one per line, comma separated. -/
def dumpFields : Nat → List (String × Json) → String
  | _, [] => ""
  | ind, [(k, v)] => spaces ind ++ quoteStr k ++ ": " ++ dumpJson ind v
  | ind, (k, v) :: f :: fs =>
    spaces ind ++ quoteStr k ++ ": " ++ dumpJson ind v ++ ",\n" ++ dumpFields ind (f :: fs)

end

/-- Models `endpoint_config.get(key, default)` for the string-valued fields the
server reads (`path`, `method`, `description`; all repo configurations hold
strings there). -/
def jgetStr (cfg : List (String × Json)) (k : String) (dflt : String) : String :=
  match alookup cfg k with
  | some (Json.str s) => s
  | _ => dflt

/-- Header resolution from `APIManager.call_api` (src/mcp_server.py lines
59-66): start empty, `update` with the API default headers, set
`Authorization: Bearer <token>` when `auth_token` is truthy (Python skips
`None` and the empty string alike), then `update` with the endpoint spec's
`headers` object when it carries one.  Split below into the three steps;
`apiDefaultHeaders` is the empty dict updated with the API-level defaults
(lines 60-62). -/
def apiDefaultHeaders (api : APIEndpoint) : List (String × Json) :=
  match api.headers with
  | some hs => alistUpdate [] (hs.map fun p => (p.1, Json.str p.2))
  | none => []

/-- The `if api.auth_token:` step (line 63-64): sets the bearer header when the
token is truthy. -/
def withAuthHeader (api : APIEndpoint) (h : List (String × Json)) : List (String × Json) :=
  match api.auth_token with
  | some t => if t = "" then h else alistInsert h "Authorization" (Json.str ("Bearer " ++ t))
  | none => h

/-- The full header-merge chain of lines 59-66: API defaults, then the bearer
header, then the endpoint spec's `headers` object when it carries one
(an empty or absent object leaves the dict unchanged, matching Python's
truthiness test combined with `dict.update`). -/
def resolveHeaders (api : APIEndpoint) (cfg : List (String × Json)) : List (String × Json) :=
  match alookup cfg "headers" with
  | some (Json.obj hs) => alistUpdate (withAuthHeader api (apiDefaultHeaders api)) hs
  | _ => withAuthHeader api (apiDefaultHeaders api)

/-- URL construction from `APIManager.call_api` (src/mcp_server.py line 57):
`urljoin(api.base_url, endpoint_config.get("path", ""))`. -/
def buildUrl (api : APIEndpoint) (cfg : List (String × Json)) : String :=
  urljoin api.base_url (jgetStr cfg "path" "")

/-- Outcome of one outbound HTTP attempt, as classified by the `httpx` calls
the source makes: `ok` when `client.request` returned a response and
`raise_for_status()` passed (`parsed` is `some` exactly when the body is valid
JSON, i.e. `response.json()` succeeds); `requestError` when `httpx.RequestError`
was raised (no HTTP response); `statusError` when `raise_for_status()` raised
`httpx.HTTPStatusError` for an error status. -/
inductive HTTPOutcome where
  | ok (status_code : Nat) (text : String) (parsed : Option Json)
  | requestError (message : String)
  | statusError (status_code : Nat) (message : String)

/-- The resolved outbound request handed to `self.client.request` (method,
url, headers, params, json body, data body). -/
structure Request where
  method : String
  url : String
  headers : List (String × Json)
  params : Json
  jsonBody : Option Json
  dataBody : Option Json

/-- The result dict `APIManager.call_api` returns: either a success dict
`{status_code, data, success=True}` or a failure dict
`{status_code, error, success=False}`. -/
inductive CallResult where
  | ok (status_code : Nat) (data : Json)
  | err (status_code : Nat) (error : String)

/-- The ASCII single-quote character Python f-strings put around names in the
`ValueError` messages. -/
def sq : String := "\x27"

/-- Models how a Python f-string renders a possibly-`None` string value. -/
def pyStrOpt : Option String → String
  | none => "None"
  | some s => s

/-- The try/except classification of one HTTP attempt (src/mcp_server.py lines
74-110): a non-raising response yields a success dict whose `data` is the JSON
parse of the body when it is valid JSON, else the raw text; `RequestError`
yields status 0 and a "Request failed: " message; `HTTPStatusError` yields the
response's status and an "HTTP error: " message. -/
def httpExecute : HTTPOutcome → CallResult
  | HTTPOutcome.ok code text parsed => CallResult.ok code (parsed.getD (Json.str text))
  | HTTPOutcome.requestError m => CallResult.err 0 ("Request failed: " ++ m)
  | HTTPOutcome.statusError code m => CallResult.err code ("HTTP error: " ++ m)

/-- The `if api_name not in self.apis: raise ValueError(...)` step (lines
47-48); a `None` argument is never a key and renders as `None` in the
message. -/
def lookupApi (reg : Registry) (api_name : Option String) : Except String APIEndpoint :=
  match api_name.bind fun n => alookup reg n with
  | none => Except.error ("API " ++ sq ++ pyStrOpt api_name ++ sq ++ " not found")
  | some api => Except.ok api

/-- The `if endpoint_name not in api.endpoints: raise ValueError(...)` step
(lines 51-52). -/
def lookupEndpoint (api : APIEndpoint) (api_name endpoint_name : Option String) :
    Except String (List (String × Json)) :=
  match endpoint_name.bind fun e => alookup api.endpoints e with
  | none =>
    Except.error ("Endpoint " ++ sq ++ pyStrOpt endpoint_name ++ sq ++ " not found in API "
      ++ sq ++ pyStrOpt api_name ++ sq)
  | some cfg => Except.ok cfg

/-- Translation of `APIManager.call_api` (src/mcp_server.py lines 45-110):
look up the API and the endpoint (raising `ValueError` when absent), resolve
the request (URL, headers, method, params, bodies) and execute it; `net`
stands for the external network, mapping the resolved request to the outcome
`httpx` produces for it. -/
def call_api (reg : Registry) (api_name endpoint_name : Option String)
    (params : Json) (data jsonData : Option Json) (net : Request → HTTPOutcome) :
    Except String CallResult :=
  match lookupApi reg api_name with
  | Except.error m => Except.error m
  | Except.ok api =>
    match lookupEndpoint api api_name endpoint_name with
    | Except.error m => Except.error m
    | Except.ok endpoint_config =>
      Except.ok (httpExecute (net
        { method := (jgetStr endpoint_config "method" "GET").toUpper
          url := buildUrl api endpoint_config
          headers := resolveHeaders api endpoint_config
          params := params
          jsonBody := jsonData
          dataBody := data }))

/-- The result formatting of `handle_call_tool` (src/mcp_server.py lines
269-273): success and failure dicts render as fixed-prefix text blocks (the
success data is pretty-printed with `json.dumps(..., indent=2)`). -/
def formatResult : CallResult → String
  | CallResult.ok code data =>
    "API call successful!\n\nStatus: " ++ toString code ++ "\nResponse:\n" ++ dumpJson 0 data
  | CallResult.err code error =>
    "API call failed!\n\nStatus: " ++ toString code ++ "\nError: " ++ error

/-- The argument dict of a tool invocation, holding the values
`handle_call_tool` reads from it (`arguments.get(...)`); absent keys are
`none`. -/
structure Arguments where
  api_name : Option String := none
  endpoint_name : Option String := none
  params : Option Json := none
  data : Option Json := none
  json : Option Json := none

/-- One `types.TextContent(type="text", text=...)` block. -/
structure TextContent where
  type : String
  text : String

/-- The body of the `try:` block of `handle_call_tool` (src/mcp_server.py
lines 235-275): route either the generic `call_api` tool (names taken from the
arguments) or a derived tool name split at its first underscore (`ValueError`
when the separator is absent), then format the result. -/
def dispatch (reg : Registry) (name : String) (args : Arguments)
    (net : Request → HTTPOutcome) : Except String String :=
  if name = "call_api" then
    (call_api reg args.api_name args.endpoint_name (args.params.getD (Json.obj []))
      args.data args.json net).map formatResult
  else
    match splitFirst name '_' with
    | none => Except.error ("Invalid tool name format: " ++ name)
    | some (a, e) =>
      (call_api reg (some a) (some e) (args.params.getD (Json.obj []))
        args.data args.json net).map formatResult

/-- Translation of `handle_call_tool` (src/mcp_server.py lines 232-280): the
`try` body, with every raised exception caught at the boundary and rendered as
an "Error calling API: " text block; always exactly one text content block. -/
def handle_call_tool (reg : Registry) (name : String) (args : Arguments)
    (net : Request → HTTPOutcome) : List TextContent :=
  match dispatch reg name args net with
  | Except.ok t => [⟨"text", t⟩]
  | Except.error e => [⟨"text", "Error calling API: " ++ e⟩]

/-- One advertised tool (`types.Tool`). -/
structure Tool where
  name : String
  description : String
  inputSchema : Json

/-- The input schema of every derived tool (src/mcp_server.py lines 176-192). -/
def derivedToolSchema : Json :=
  Json.obj [
    ("type", Json.str "object"),
    ("properties", Json.obj [
      ("params", Json.obj [("type", Json.str "object"),
        ("description", Json.str "Query parameters for the API call")]),
      ("data", Json.obj [("type", Json.str "object"),
        ("description", Json.str "Request body data (for POST/PUT requests)")]),
      ("json", Json.obj [("type", Json.str "object"),
        ("description", Json.str "JSON data for the request")])])]

/-- The generic tool appended last (src/mcp_server.py lines 197-228). -/
def callApiTool : Tool :=
  ⟨"call_api", "Make a direct API call to any registered endpoint",
    Json.obj [
      ("type", Json.str "object"),
      ("properties", Json.obj [
        ("api_name", Json.obj [("type", Json.str "string"),
          ("description", Json.str "Name of the API to call")]),
        ("endpoint_name", Json.obj [("type", Json.str "string"),
          ("description", Json.str "Name of the endpoint to call")]),
        ("params", Json.obj [("type", Json.str "object"),
          ("description", Json.str "Query parameters")]),
        ("data", Json.obj [("type", Json.str "object"),
          ("description", Json.str "Request body data")]),
        ("json", Json.obj [("type", Json.str "object"),
          ("description", Json.str "JSON data for the request")])]),
      ("required", Json.arr [Json.str "api_name", Json.str "endpoint_name"])]⟩

/-- Translation of `handle_list_tools` (src/mcp_server.py lines 164-230): one
derived tool per registered `(api, endpoint)` pair, in registry order, named
`api_name + "_" + endpoint_name`, followed by the single generic `call_api`
tool. -/
def handle_list_tools (reg : Registry) : List Tool :=
  (reg.flatMap fun p =>
    p.2.endpoints.map fun q =>
      ⟨p.1 ++ "_" ++ q.1, p.1 ++ ": " ++ jgetStr q.2 "description" q.1, derivedToolSchema⟩)
  ++ [callApiTool]

/-- One `types.Resource` descriptor. -/
structure Resource where
  uri : String
  name : String
  description : String
  mimeType : String

/-- Translation of `handle_list_resources` (src/mcp_server.py lines 282-297). -/
def handle_list_resources (reg : Registry) : List Resource :=
  reg.map fun p =>
    ⟨"api://" ++ p.1 ++ "/info", p.1 ++ " API Info",
      "Information about the " ++ p.1 ++ " API endpoints", "application/json"⟩

/-- Boolean prefix test on character lists. -/
def startsWithCL : List Char → List Char → Bool
  | [], _ => true
  | _ :: _, [] => false
  | p :: ps, c :: cs => if p = c then startsWithCL ps cs else false

/-- Number of occurrences of a character. -/
def countChar (c : Char) : List Char → Nat
  | [] => 0
  | d :: ds => (if d = c then 1 else 0) + countChar c ds

/-- Fuel-indexed scan for `str.replace`: each step consumes at least one
character, so fuel equal to the input length suffices. -/
def replaceFromAux (pat rep : List Char) : Nat → List Char → List Char
  | 0, l => l
  | _ + 1, [] => []
  | fuel + 1, c :: cs =>
    if startsWithCL pat (c :: cs) then
      rep ++ replaceFromAux pat rep fuel (cs.drop (pat.length - 1))
    else c :: replaceFromAux pat rep fuel cs

/-- Models Python `s.replace(pat, rep)`: scan left to right, replacing each
non-overlapping occurrence of `pat`. -/
def replaceFrom (pat rep l : List Char) : List Char :=
  replaceFromAux pat rep l.length l

/-- The JSON object `handle_read_resource` dumps for a registered API
(src/mcp_server.py lines 308-312). -/
def apiInfoJson (api : APIEndpoint) : Json :=
  Json.obj [
    ("name", Json.str api.name),
    ("base_url", Json.str api.base_url),
    ("endpoints", Json.obj (api.endpoints.map fun p => (p.1, Json.obj p.2)))]

/-- Translation of `handle_read_resource` (src/mcp_server.py lines 299-314):
when the uri starts with `api://`, delete every occurrence of `api://`
(`uri.replace`), split the remainder on `/`, and when there are at least two
parts with the second equal to `info` and the first a registered API name,
return the pretty-printed info object; in every other case raise
`ValueError("Unknown resource: <uri>")`. -/
def handle_read_resource (reg : Registry) (uri : String) : Except String String :=
  if startsWithCL "api://".data uri.data then
    match splitOnChar '/' (replaceFrom "api://".data [] uri.data) with
    | p0 :: p1 :: _ =>
      if p1 = "info".data then
        match alookup reg (String.mk p0) with
        | some api => Except.ok (dumpJson 0 (apiInfoJson api))
        | none => Except.error ("Unknown resource: " ++ uri)
      else Except.error ("Unknown resource: " ++ uri)
    | _ => Except.error ("Unknown resource: " ++ uri)
  else Except.error ("Unknown resource: " ++ uri)

/-- The first entry of `SAMPLE_APIS` (src/mcp_server.py lines 122-142). -/
def jsonplaceholderDef : APIEndpoint :=
  { name := "jsonplaceholder"
    base_url := "https://jsonplaceholder.typicode.com"
    endpoints := [
      ("get_posts", [("path", Json.str "/posts"), ("method", Json.str "GET"),
        ("description", Json.str "Get all posts")]),
      ("get_post", [("path", Json.str "/posts/{post_id}"), ("method", Json.str "GET"),
        ("description", Json.str "Get a specific post by ID")]),
      ("get_users", [("path", Json.str "/users"), ("method", Json.str "GET"),
        ("description", Json.str "Get all users")])] }

/-- The second entry of `SAMPLE_APIS` (src/mcp_server.py lines 144-161). -/
def weatherApiDef : APIEndpoint :=
  { name := "weather_api"
    base_url := "https://api.openweathermap.org/data/2.5"
    endpoints := [
      ("current_weather", [("path", Json.str "/weather"), ("method", Json.str "GET"),
        ("description", Json.str "Get current weather for a city")]),
      ("forecast", [("path", Json.str "/forecast"), ("method", Json.str "GET"),
        ("description", Json.str "Get weather forecast")])]
    headers := some [("Content-Type", "application/json")] }

/-- The statically configured APIs (src/mcp_server.py lines 121-162). -/
def SAMPLE_APIS : List APIEndpoint := [jsonplaceholderDef, weatherApiDef]

/-- The registry after `main()` registered the sample APIs in order
(src/mcp_server.py lines 319-320). -/
def sampleRegistry : Registry :=
  (SAMPLE_APIS.foldl register_api ⟨[]⟩).apis

/-- State-passing form of `APIManager.call_api`: its body only reads
`self.apis` (lines 47-54) and never assigns any attribute, so the state
component is returned unchanged. -/
def call_api_st (st : ManagerState) (api_name endpoint_name : Option String)
    (params : Json) (data jsonData : Option Json) (net : Request → HTTPOutcome) :
    Except String CallResult × ManagerState :=
  (call_api st.apis api_name endpoint_name params data jsonData net, st)

/-- State-passing form of `handle_call_tool`: the handler body contains no
assignment to `api_manager.apis` (it only invokes `call_api`). -/
def handle_call_tool_st (st : ManagerState) (name : String) (args : Arguments)
    (net : Request → HTTPOutcome) : List TextContent × ManagerState :=
  (handle_call_tool st.apis name args net, st)

/-- State-passing form of `handle_list_tools`: a pure projection of the
registry (it only iterates `api_manager.apis.items()`). -/
def handle_list_tools_st (st : ManagerState) : List Tool × ManagerState :=
  (handle_list_tools st.apis, st)

/-- State-passing form of `handle_list_resources`: a pure projection of the
registry. -/
def handle_list_resources_st (st : ManagerState) : List Resource × ManagerState :=
  (handle_list_resources st.apis, st)

/-- State-passing form of `handle_read_resource`: the handler only reads
`api_manager.apis`. -/
def handle_read_resource_st (st : ManagerState) (uri : String) :
    Except String String × ManagerState :=
  (handle_read_resource st.apis uri, st)

/-- Spec-words description for the refinement claim: invoking the generic
`call_api` tool with `api_name`/`endpoint_name` injected into the argument
dict (to be compared with dispatching the derived tool name directly). -/
def dispatch_via_generic (reg : Registry) (a e : String) (args : Arguments)
    (net : Request → HTTPOutcome) : List TextContent :=
  handle_call_tool reg "call_api"
    { args with api_name := some a, endpoint_name := some e } net

/-- A re-registration of `jsonplaceholder` with a different base URL, used to
exercise last-write-wins. -/
def jsonplaceholderDef2 : APIEndpoint :=
  { jsonplaceholderDef with base_url := "https://example.org" }

/-- A registry whose only API is named `call` with an endpoint named `api`,
so that the derived tool identifier would collide with the generic tool. -/
def regCallApi : Registry :=
  [("call", { name := "call", base_url := "https://call.example",
              endpoints := [("api", [("path", Json.str "/x")])] })]

/-- C1: for every registry state, the catalog returned by the list-tools
handler holds exactly one derived tool per registered `(api_name,
endpoint_name)` pair — named `api_name ++ "_" ++ endpoint_name`, in registry
order — followed by exactly one generic `call_api` tool, so its size is the
total endpoint count over all registered APIs plus one. -/
theorem c1_tool_catalog (reg : Registry) :
    (handle_list_tools reg).map Tool.name
        = (reg.flatMap fun p => p.2.endpoints.map fun q => p.1 ++ "_" ++ q.1) ++ ["call_api"]
      ∧ (handle_list_tools reg).length
        = (reg.map fun p => p.2.endpoints.length).sum + 1 := by
  constructor
  · simp [handle_list_tools, List.map_flatMap, List.map_map, Function.comp_def, callApiTool]
  · simp [handle_list_tools, List.length_flatMap, Function.comp_def, List.length_map]

/-- C6: splitting a derived identifier `a ++ "_" ++ e` (with `a` free of the
separator) at the first underscore recovers exactly `(a, e)`, and a
non-generic invocation name without the separator makes the handler report the
invalid-format error. -/
theorem c6_name_roundtrip (a e name : String)
    (ha : '_' ∉ a.data) (hname : name ≠ "call_api") (hnou : '_' ∉ name.data) :
    splitFirst (a ++ "_" ++ e) '_' = some (a, e)
      ∧ ∀ (reg : Registry) (args : Arguments) (net : Request → HTTPOutcome),
          handle_call_tool reg name args net
            = [⟨"text", "Error calling API: Invalid tool name format: " ++ name⟩] := by
  refine ⟨splitFirst_roundtrip a e ha, ?_⟩
  intro reg args net
  unfold handle_call_tool dispatch
  rw [if_neg hname, splitFirst_eq_none name hnou]
  show [(⟨"text", "Error calling API: " ++ ("Invalid tool name format: " ++ name)⟩ : TextContent)]
      = [⟨"text", "Error calling API: Invalid tool name format: " ++ name⟩]
  rw [← String.append_assoc]
  rfl

/-- Witness for C6 at a concrete derived name and a concrete separator-free
name. -/
theorem c6_name_roundtrip_witness :
    '_' ∉ ("jsonplaceholder" : String).data
      ∧ ("nounderscore" : String) ≠ "call_api"
      ∧ '_' ∉ ("nounderscore" : String).data
      ∧ (splitFirst ("jsonplaceholder" ++ "_" ++ "get_posts") '_'
            = some ("jsonplaceholder", "get_posts")
          ∧ ∀ (reg : Registry) (args : Arguments) (net : Request → HTTPOutcome),
              handle_call_tool reg "nounderscore" args net
                = [⟨"text", "Error calling API: Invalid tool name format: " ++ "nounderscore"⟩]) :=
  ⟨by decide, by decide, by decide,
    c6_name_roundtrip "jsonplaceholder" "get_posts" "nounderscore"
      (by decide) (by decide) (by decide)⟩

/-- C8: registration stores the definition under its name, a later
registration under the same name silently overwrites the earlier one, and
lookups under every other name are unchanged. -/
theorem c8_register_overwrite (st : ManagerState) (d : APIEndpoint) (n : String)
    (hn : n ≠ d.name) :
    alookup (register_api st d).apis d.name = some d
      ∧ alookup (register_api st d).apis n = alookup st.apis n := by
  constructor
  · show alookup (alistInsert st.apis d.name d) d.name = some d
    rw [alookup_insert]
    simp
  · show alookup (alistInsert st.apis d.name d) n = alookup st.apis n
    rw [alookup_insert, if_neg hn]

/-- Witness for C8: re-registering `jsonplaceholder` (already present in the
sample registry) with a different base URL wins, while `weather_api` is
untouched. -/
theorem c8_register_overwrite_witness :
    ("weather_api" : String) ≠ jsonplaceholderDef2.name
      ∧ (alookup (register_api ⟨sampleRegistry⟩ jsonplaceholderDef2).apis
            jsonplaceholderDef2.name = some jsonplaceholderDef2
          ∧ alookup (register_api ⟨sampleRegistry⟩ jsonplaceholderDef2).apis "weather_api"
            = alookup sampleRegistry "weather_api") :=
  ⟨by decide, c8_register_overwrite ⟨sampleRegistry⟩ jsonplaceholderDef2 "weather_api" (by decide)⟩

/-- C9: a derived-name invocation is exactly the generic `call_api` invocation
with the split names injected into the arguments; and the identifier
`call_api` itself is always routed to the generic tool, so even when an API
named `call` with endpoint `api` is registered (and the first-underscore split
of `call_api` would reach it), the handler reads the names from the arguments
instead, erroring for every network when they are absent. -/
theorem c9_dispatch_equiv (reg : Registry) (name : String) (args : Arguments)
    (net : Request → HTTPOutcome) (a e : String)
    (hne : name ≠ "call_api") (hsplit : splitFirst name '_' = some (a, e)) :
    handle_call_tool reg name args net = dispatch_via_generic reg a e args net
      ∧ splitFirst "call_api" '_' = some ("call", "api")
      ∧ ∀ net' : Request → HTTPOutcome,
          handle_call_tool regCallApi "call_api" {} net'
            = [⟨"text", "Error calling API: API \x27None\x27 not found"⟩] := by
  refine ⟨?_, by decide, fun net' => rfl⟩
  unfold handle_call_tool dispatch_via_generic handle_call_tool dispatch
  rw [if_neg hne, hsplit]
  rfl

/-- Witness for C9 at a concrete derived name. -/
theorem c9_dispatch_equiv_witness :
    ("jsonplaceholder_get_posts" : String) ≠ "call_api"
      ∧ splitFirst "jsonplaceholder_get_posts" '_' = some ("jsonplaceholder", "get" ++ "_posts")
      ∧ (handle_call_tool sampleRegistry "jsonplaceholder_get_posts" {}
            (fun _ => HTTPOutcome.requestError "down")
          = dispatch_via_generic sampleRegistry "jsonplaceholder" ("get" ++ "_posts") {}
            (fun _ => HTTPOutcome.requestError "down")
          ∧ splitFirst "call_api" '_' = some ("call", "api")
          ∧ ∀ net' : Request → HTTPOutcome,
              handle_call_tool regCallApi "call_api" {} net'
                = [⟨"text", "Error calling API: API \x27None\x27 not found"⟩]) :=
  ⟨by decide, by decide,
    c9_dispatch_equiv sampleRegistry "jsonplaceholder_get_posts" {}
      (fun _ => HTTPOutcome.requestError "down") "jsonplaceholder" ("get" ++ "_posts")
      (by decide) (by decide)⟩

/-- C10: no handler other than registration touches the registry — every
state-passing operation returns the manager state it was given, whether its
result is a success or a failure (the translated bodies contain no assignment
to `self.apis`; only `register_api`, line 42 of the source, writes it). -/
theorem c10_registry_frame (st : ManagerState) (name : String) (args : Arguments)
    (net : Request → HTTPOutcome) (a e : Option String) (p : Json) (d j : Option Json)
    (uri : String) :
    (call_api_st st a e p d j net).2 = st
      ∧ (handle_call_tool_st st name args net).2 = st
      ∧ (handle_list_tools_st st).2 = st
      ∧ (handle_list_resources_st st).2 = st
      ∧ (handle_read_resource_st st uri).2 = st :=
  ⟨rfl, rfl, rfl, rfl, rfl⟩

theorem oOr_none_right {α : Type} (x : Option α) : oOr x none = x := by
  cases x <;> rfl

instance nodupKeysDecidable {α : Type} (l : List (String × α)) : Decidable (NodupKeys l) := by
  unfold NodupKeys
  infer_instance

theorem alookup_apiDefaultHeaders (api : APIEndpoint) (k : String)
    (hapi : ∀ hs, api.headers = some hs → NodupKeys hs) :
    alookup (apiDefaultHeaders api) k
      = (match api.headers with
         | some hs => (alookup hs k).map Json.str
         | none => none) := by
  rcases hh : api.headers with _ | hs
  · unfold apiDefaultHeaders
    rw [hh]
    rfl
  · unfold apiDefaultHeaders
    rw [hh,
      alookup_update (hs.map fun p => (p.1, Json.str p.2)) []
        (nodupKeys_map_value Json.str hs (hapi hs hh)) k,
      alookup_map_value]
    exact oOr_none_right _

theorem alookup_withAuthHeader (api : APIEndpoint) (h : List (String × Json)) (k : String) :
    alookup (withAuthHeader api h) k
      = oOr (match api.auth_token with
             | some t =>
               if t = "" then none
               else if k = "Authorization" then some (Json.str ("Bearer " ++ t)) else none
             | none => none)
          (alookup h k) := by
  rcases ht : api.auth_token with _ | t
  · unfold withAuthHeader
    rw [ht]
    rfl
  · unfold withAuthHeader
    rw [ht]
    show alookup (if t = "" then h else alistInsert h "Authorization"
        (Json.str ("Bearer " ++ t))) k
      = oOr (if t = "" then none
             else if k = "Authorization" then some (Json.str ("Bearer " ++ t)) else none)
          (alookup h k)
    by_cases he : t = ""
    · rw [if_pos he, if_pos he]
      rfl
    · rw [if_neg he, if_neg he, alookup_insert]
      by_cases hk : k = "Authorization"
      · rw [if_pos hk, if_pos hk]
        rfl
      · rw [if_neg hk, if_neg hk]
        rfl

theorem lookupApi_some (reg : Registry) (a : String) (api : APIEndpoint)
    (h : alookup reg a = some api) : lookupApi reg (some a) = Except.ok api := by
  unfold lookupApi
  rw [show Option.bind (some a) (fun n => alookup reg n) = alookup reg a from rfl, h]

theorem lookupEndpoint_some (api : APIEndpoint) (a e : String) (cfg : List (String × Json))
    (h : alookup api.endpoints e = some cfg) :
    lookupEndpoint api (some a) (some e) = Except.ok cfg := by
  unfold lookupEndpoint
  rw [show Option.bind (some e) (fun x => alookup api.endpoints x)
      = alookup api.endpoints e from rfl, h]

/-- Every success of the dispatcher body is a formatted call result. -/
theorem dispatch_ok_shape (reg : Registry) (name : String) (args : Arguments)
    (net : Request → HTTPOutcome) (t : String)
    (h : dispatch reg name args net = Except.ok t) :
    ∃ r : CallResult, t = formatResult r := by
  unfold dispatch at h
  by_cases hn : name = "call_api"
  · rw [if_pos hn] at h
    rcases hc : call_api reg args.api_name args.endpoint_name (args.params.getD (Json.obj []))
        args.data args.json net with e | r
    · rw [hc] at h
      exact absurd h (by simp [Except.map])
    · rw [hc] at h
      simp only [Except.map, Except.ok.injEq] at h
      exact ⟨r, h.symm⟩
  · rw [if_neg hn] at h
    rcases hs : splitFirst name '_' with _ | ⟨a, e⟩
    · rw [hs] at h
      exact absurd h (by simp)
    · rw [hs] at h
      have h' : Except.map formatResult
          (call_api reg (some a) (some e) (args.params.getD (Json.obj []))
            args.data args.json net) = Except.ok t := h
      rcases hc : call_api reg (some a) (some e) (args.params.getD (Json.obj []))
          args.data args.json net with err | r
      · rw [hc] at h'
        exact absurd h' (by simp [Except.map])
      · rw [hc] at h'
        simp only [Except.map, Except.ok.injEq] at h'
        exact ⟨r, h'.symm⟩

/-- Every formatted call result starts with one of the two fixed prefixes. -/
theorem formatResult_shape (r : CallResult) :
    (∃ t, formatResult r = "API call successful!" ++ t)
      ∨ (∃ t, formatResult r = "API call failed!" ++ t) := by
  cases r with
  | ok code data =>
    left
    refine ⟨"\n\nStatus: " ++ (toString code ++ ("\nResponse:\n" ++ dumpJson 0 data)), ?_⟩
    show "API call successful!\n\nStatus: " ++ toString code ++ "\nResponse:\n" ++ dumpJson 0 data
        = "API call successful!"
          ++ ("\n\nStatus: " ++ (toString code ++ ("\nResponse:\n" ++ dumpJson 0 data)))
    rw [String.append_assoc, String.append_assoc,
      (by decide : ("API call successful!\n\nStatus: " : String)
        = "API call successful!" ++ "\n\nStatus: "),
      String.append_assoc]
  | err code error =>
    right
    refine ⟨"\n\nStatus: " ++ (toString code ++ ("\nError: " ++ error)), ?_⟩
    show "API call failed!\n\nStatus: " ++ toString code ++ "\nError: " ++ error
        = "API call failed!" ++ ("\n\nStatus: " ++ (toString code ++ ("\nError: " ++ error)))
    rw [String.append_assoc, String.append_assoc,
      (by decide : ("API call failed!\n\nStatus: " : String)
        = "API call failed!" ++ "\n\nStatus: "),
      String.append_assoc]

/-- The endpoint spec of the spec's header-merge example: path `/users` with an
endpoint-level header overriding the API default. -/
def exampleEndpointCfg : List (String × Json) :=
  [("path", Json.str "/users"),
   ("headers", Json.obj [("X-API-Key", Json.str "k2")])]

/-- The API of the spec's header-merge and URL-join examples: base url
`https://api.example.com/v1`, default header `X-API-Key: k1`, bearer token
`tok`. -/
def exampleApi : APIEndpoint :=
  { name := "example"
    base_url := "https://api.example.com/v1"
    endpoints := [("get_users", exampleEndpointCfg)]
    headers := some [("X-API-Key", "k1")]
    auth_token := some "tok" }

/-- C2: whenever `call_api` is invoked on a registered API and endpoint, it
returns (without raising) exactly one of the three envelope shapes, determined
by the network outcome of the resolved request: success with the actual status
and the JSON-parsed body (raw text when the body is not valid JSON), transport
failure with status 0 and a "Request failed: " message, or HTTP-status failure
with the returned code and an "HTTP error: " message. -/
theorem c2_result_envelope (reg : Registry) (a e : String) (p : Json) (d j : Option Json)
    (net : Request → HTTPOutcome) (api : APIEndpoint) (cfg : List (String × Json))
    (hapi : alookup reg a = some api) (hep : alookup api.endpoints e = some cfg) :
    ∃ req : Request,
      call_api reg (some a) (some e) p d j net
        = Except.ok (match net req with
            | HTTPOutcome.ok code text parsed => CallResult.ok code (parsed.getD (Json.str text))
            | HTTPOutcome.requestError m => CallResult.err 0 ("Request failed: " ++ m)
            | HTTPOutcome.statusError code m =>
              CallResult.err code ("HTTP error: " ++ m)) := by
  refine ⟨{ method := (jgetStr cfg "method" "GET").toUpper, url := buildUrl api cfg,
            headers := resolveHeaders api cfg, params := p, jsonBody := j,
            dataBody := d }, ?_⟩
  unfold call_api
  simp only [lookupApi_some reg a api hapi]
  simp only [lookupEndpoint_some api a e cfg hep]
  rfl

/-- Witness for C2 on the sample registry: a 200 response with JSON body `[]`
yields the success envelope. -/
theorem c2_result_envelope_witness :
    alookup sampleRegistry "jsonplaceholder" = some jsonplaceholderDef
      ∧ alookup jsonplaceholderDef.endpoints "get_posts"
          = some [("path", Json.str "/posts"), ("method", Json.str "GET"),
                  ("description", Json.str "Get all posts")]
      ∧ ∃ req : Request,
          call_api sampleRegistry (some "jsonplaceholder") (some "get_posts") (Json.obj [])
              none none (fun _ => HTTPOutcome.ok 200 "[]" (some (Json.arr [])))
            = Except.ok (CallResult.ok 200 (Json.arr [])) :=
  ⟨rfl, rfl,
    c2_result_envelope sampleRegistry "jsonplaceholder" "get_posts" (Json.obj []) none none
      (fun _ => HTTPOutcome.ok 200 "[]" (some (Json.arr []))) jsonplaceholderDef
      [("path", Json.str "/posts"), ("method", Json.str "GET"),
       ("description", Json.str "Get all posts")] rfl rfl⟩

/-- C3: the tool-call handler never lets an error escape — for every invocation
name, argument dict and network behavior it returns exactly one text content
block, whose text is a formatted success, a formatted failure, or an
"Error calling API: " rendering of a caught exception. -/
theorem c3_no_escape (reg : Registry) (name : String) (args : Arguments)
    (net : Request → HTTPOutcome) :
    ∃ t, handle_call_tool reg name args net = [⟨"text", t⟩]
      ∧ ((∃ r, t = "API call successful!" ++ r)
          ∨ (∃ r, t = "API call failed!" ++ r)
          ∨ (∃ r, t = "Error calling API: " ++ r)) := by
  unfold handle_call_tool
  rcases hd : dispatch reg name args net with e | t
  · exact ⟨"Error calling API: " ++ e, rfl, Or.inr (Or.inr ⟨e, rfl⟩)⟩
  · refine ⟨t, rfl, ?_⟩
    obtain ⟨r, hr⟩ := dispatch_ok_shape reg name args net t hd
    subst hr
    rcases formatResult_shape r with ⟨s, hs⟩ | ⟨s, hs⟩
    · exact Or.inl ⟨s, hs⟩
    · exact Or.inr (Or.inl ⟨s, hs⟩)

/-- C4: resolved headers obey endpoint-over-bearer-over-default precedence —
the lookup of any key is the endpoint-level value when present, else the
bearer `Authorization` value when the token is truthy and the key is
`Authorization`, else the API default; on the spec's example the resolved
headers carry `Authorization: Bearer tok` and `X-API-Key: k2`. -/
theorem c4_header_merge (api : APIEndpoint) (cfg : List (String × Json)) (k : String)
    (hapi : ∀ hs, api.headers = some hs → NodupKeys hs)
    (hcfg : ∀ hs, alookup cfg "headers" = some (Json.obj hs) → NodupKeys hs) :
    alookup (resolveHeaders api cfg) k
        = oOr (match alookup cfg "headers" with
               | some (Json.obj hs) => alookup hs k
               | _ => none)
            (oOr (match api.auth_token with
                  | some t =>
                    if t = "" then none
                    else if k = "Authorization" then some (Json.str ("Bearer " ++ t)) else none
                  | none => none)
                (match api.headers with
                 | some hs => (alookup hs k).map Json.str
                 | none => none))
      ∧ alookup (resolveHeaders exampleApi exampleEndpointCfg) "Authorization"
          = some (Json.str ("Bearer " ++ "tok"))
      ∧ alookup (resolveHeaders exampleApi exampleEndpointCfg) "X-API-Key"
          = some (Json.str "k2") := by
  refine ⟨?_, rfl, rfl⟩
  unfold resolveHeaders
  rcases hc : alookup cfg "headers" with _ | v
  · rw [alookup_withAuthHeader, alookup_apiDefaultHeaders api k hapi]
    rfl
  · cases v with
    | obj hs =>
      rw [alookup_update hs (withAuthHeader api (apiDefaultHeaders api)) (hcfg hs hc) k,
        alookup_withAuthHeader, alookup_apiDefaultHeaders api k hapi]
    | null =>
      rw [alookup_withAuthHeader, alookup_apiDefaultHeaders api k hapi]
      rfl
    | bool b =>
      rw [alookup_withAuthHeader, alookup_apiDefaultHeaders api k hapi]
      rfl
    | num n =>
      rw [alookup_withAuthHeader, alookup_apiDefaultHeaders api k hapi]
      rfl
    | str s =>
      rw [alookup_withAuthHeader, alookup_apiDefaultHeaders api k hapi]
      rfl
    | arr xs =>
      rw [alookup_withAuthHeader, alookup_apiDefaultHeaders api k hapi]
      rfl

/-- Witness for C4 at the spec's example API and endpoint. -/
theorem c4_header_merge_witness :
    (∀ hs, exampleApi.headers = some hs → NodupKeys hs)
      ∧ (∀ hs, alookup exampleEndpointCfg "headers" = some (Json.obj hs) → NodupKeys hs)
      ∧ (alookup (resolveHeaders exampleApi exampleEndpointCfg) "Authorization"
            = oOr (match alookup exampleEndpointCfg "headers" with
                   | some (Json.obj hs) => alookup hs "Authorization"
                   | _ => none)
                (oOr (match exampleApi.auth_token with
                      | some t =>
                        if t = "" then none
                        else if "Authorization" = "Authorization" then
                          some (Json.str ("Bearer " ++ t))
                        else none
                      | none => none)
                    (match exampleApi.headers with
                     | some hs => (alookup hs "Authorization").map Json.str
                     | none => none))
          ∧ alookup (resolveHeaders exampleApi exampleEndpointCfg) "Authorization"
              = some (Json.str ("Bearer " ++ "tok"))
          ∧ alookup (resolveHeaders exampleApi exampleEndpointCfg) "X-API-Key"
              = some (Json.str "k2")) :=
  ⟨fun hs h => by injection h with h2; rw [← h2]; decide,
    fun hs h => by
      injection h with h2
      injection h2 with h3
      rw [← h3]
      decide,
    c4_header_merge exampleApi exampleEndpointCfg "Authorization"
      (fun hs h => by injection h with h2; rw [← h2]; decide)
      (fun hs h => by
        injection h with h2
        injection h2 with h3
        rw [← h3]
        decide)⟩

theorem startsWithCL_append (p r : List Char) : startsWithCL p (p ++ r) = true := by
  induction p with
  | nil => rfl
  | cons c ps ih =>
    show startsWithCL (c :: ps) (c :: (ps ++ r)) = true
    simp only [startsWithCL, if_pos rfl]
    exact ih

theorem startsWithCL_infers : ∀ (p l : List Char), startsWithCL p l = true → ∃ r, l = p ++ r := by
  intro p
  induction p with
  | nil => exact fun l _ => ⟨l, rfl⟩
  | cons a ps ih =>
    intro l h
    cases l with
    | nil => exact absurd h (by simp [startsWithCL])
    | cons c cs =>
      simp only [startsWithCL] at h
      by_cases hac : a = c
      · rw [if_pos hac] at h
        obtain ⟨r, hr⟩ := ih cs h
        refine ⟨r, ?_⟩
        rw [hr, hac]
        rfl
      · rw [if_neg hac] at h
        exact absurd h (by simp)

theorem countChar_append (c : Char) (l1 l2 : List Char) :
    countChar c (l1 ++ l2) = countChar c l1 + countChar c l2 := by
  induction l1 with
  | nil => simp [countChar]
  | cons d ds ih =>
    show countChar c (d :: (ds ++ l2)) = _
    simp only [countChar, ih]
    omega

theorem countChar_eq_zero (c : Char) (l : List Char) (h : c ∉ l) : countChar c l = 0 := by
  induction l with
  | nil => rfl
  | cons d ds ih =>
    have hd : ¬ (d = c) := fun h' => h (h' ▸ List.mem_cons_self d ds)
    have hds : c ∉ ds := fun h' => h (List.mem_cons_of_mem d h')
    simp only [countChar, if_neg hd, ih hds]

/-- The scheme prefix `api://` as a character list. -/
theorem apiPat_data : ("api://" : String).data = ['a', 'p', 'i', ':', '/', '/'] := rfl

theorem countChar_two_of_startsWith (l : List Char)
    (h : startsWithCL ['a', 'p', 'i', ':', '/', '/'] l = true) :
    2 ≤ countChar '/' l := by
  obtain ⟨r, hr⟩ := startsWithCL_infers ['a', 'p', 'i', ':', '/', '/'] l h
  rw [hr, countChar_append]
  have h2 : countChar '/' ['a', 'p', 'i', ':', '/', '/'] = 2 := by decide
  omega

theorem replaceFromAux_no_occ (rep : List Char) :
    ∀ (fuel : Nat) (l : List Char), countChar '/' l ≤ 1 → l.length ≤ fuel →
      replaceFromAux ['a', 'p', 'i', ':', '/', '/'] rep fuel l = l := by
  intro fuel
  induction fuel with
  | zero =>
    intro l _ hlen
    cases l with
    | nil => rfl
    | cons c cs => simp at hlen
  | succ m ih =>
    intro l hcount hlen
    cases l with
    | nil => rfl
    | cons c cs =>
      have hsw : startsWithCL ['a', 'p', 'i', ':', '/', '/'] (c :: cs) = false := by
        cases hsw : startsWithCL ['a', 'p', 'i', ':', '/', '/'] (c :: cs)
        · rfl
        · have := countChar_two_of_startsWith (c :: cs) hsw
          omega
      have hcs : countChar '/' cs ≤ 1 := by
        by_cases hc : c = '/'
        · simp only [countChar, if_pos hc] at hcount
          omega
        · simp only [countChar, if_neg hc] at hcount
          omega
      have hlen' : cs.length ≤ m := by
        simp only [List.length_cons] at hlen
        omega
      simp [replaceFromAux, hsw, ih cs hcs hlen']

theorem replaceFrom_api_prefix (rep rest : List Char) (hc : countChar '/' rest ≤ 1) :
    replaceFrom ['a', 'p', 'i', ':', '/', '/'] rep (['a', 'p', 'i', ':', '/', '/'] ++ rest)
      = rep ++ rest := by
  unfold replaceFrom
  have hlen : (['a', 'p', 'i', ':', '/', '/'] ++ rest).length = rest.length + 6 := by
    simp only [List.length_append, List.length_cons, List.length_nil]
    omega
  rw [hlen]
  show replaceFromAux ['a', 'p', 'i', ':', '/', '/'] rep (rest.length + 6)
      ('a' :: 'p' :: 'i' :: ':' :: '/' :: '/' :: rest) = rep ++ rest
  have hsw : startsWithCL ['a', 'p', 'i', ':', '/', '/']
      ('a' :: 'p' :: 'i' :: ':' :: '/' :: '/' :: rest) = true := by
    simp [startsWithCL]
  simp only [replaceFromAux, hsw, if_pos]
  rw [show List.drop (['a', 'p', 'i', ':', '/', '/'].length - 1)
      ('p' :: 'i' :: ':' :: '/' :: '/' :: rest) = rest from rfl]
  rw [replaceFromAux_no_occ rep (rest.length + 5) rest hc (by omega)]

/-- The claim's success condition for reading a resource: the uri is exactly
`api://<api_name>/info` for some registered `<api_name>`. -/
def ExactInfoForm (reg : Registry) (uri : String) : Prop :=
  ∃ n : String, (alookup reg n).isSome ∧ uri = "api://" ++ n ++ "/info"

/-- C7 counterexample: the uri `api://jsonplaceholder/info/extra` is not of
the exact form `api://<api_name>/info` for any name, yet the read-resource
handler returns the info JSON instead of failing — the handler ignores
everything after the second `/`-separated component. -/
theorem c7_read_resource_cex :
    handle_read_resource sampleRegistry "api://jsonplaceholder/info/extra"
        = Except.ok (dumpJson 0 (apiInfoJson jsonplaceholderDef))
      ∧ ¬ ExactInfoForm sampleRegistry "api://jsonplaceholder/info/extra" := by
  constructor
  · rfl
  · rintro ⟨n, _, h⟩
    have hd := congrArg String.data h
    rw [String.data_append, String.data_append] at hd
    have h5 : (("api://".data ++ n.data) ++ "/info".data).getLast? = some 'o' := by
      rw [getLast_app ("api://".data ++ n.data) "/info".data (by decide)]
      decide
    rw [← hd] at h5
    exact absurd h5 (by decide)

/-- The amended claim's success condition, written from its words: the uri
starts with `api://` and, after deleting every occurrence of `api://` and
splitting on `/`, there are at least two components, the second equals
`info`, and the first names a registered API — whose definition this function
returns. -/
def readTarget (reg : Registry) (uri : String) : Option APIEndpoint :=
  if startsWithCL "api://".data uri.data then
    match splitOnChar '/' (replaceFrom "api://".data [] uri.data) with
    | p0 :: p1 :: _ => if p1 = "info".data then alookup reg (String.mk p0) else none
    | _ => none
  else none

/-- Full characterization of the read-resource handler against the amended
condition, for every registry and every uri: when the condition picks out a
definition the handler returns its pretty-printed info object, and when it
does not the handler fails with exactly `Unknown resource: <uri>`. -/
theorem handle_read_resource_char (reg : Registry) (uri : String) :
    (∀ api, readTarget reg uri = some api →
        handle_read_resource reg uri = Except.ok (dumpJson 0 (apiInfoJson api)))
      ∧ (readTarget reg uri = none →
          handle_read_resource reg uri = Except.error ("Unknown resource: " ++ uri)) := by
  unfold handle_read_resource readTarget
  by_cases hsw : startsWithCL "api://".data uri.data = true
  · rw [if_pos hsw, if_pos hsw]
    rcases hsp : splitOnChar '/' (replaceFrom "api://".data [] uri.data) with _ | ⟨p0, rest⟩
    · simp only [hsp]
      exact ⟨fun api h => absurd h (by simp), by simp⟩
    · cases rest with
      | nil =>
        simp only [hsp]
        exact ⟨fun api h => absurd h (by simp), by simp⟩
      | cons p1 rest2 =>
        simp only [hsp]
        by_cases hp1 : p1 = "info".data
        · simp only [if_pos hp1]
          constructor
          · intro api h
            rw [h]
          · intro h
            rw [h]
        · simp only [if_neg hp1]
          exact ⟨fun api h => absurd h (by simp), by simp⟩
  · rw [if_neg hsw, if_neg hsw]
    exact ⟨fun api h => absurd h (by simp), fun _ => rfl⟩

/-- Every `api://<name>/info` with `<name>` slash-free and registered
satisfies the amended success condition, targeting that registration. -/
theorem readTarget_exact (reg : Registry) (n : String) (api : APIEndpoint)
    (hreg : alookup reg n = some api) (hn : '/' ∉ n.data) :
    readTarget reg ("api://" ++ n ++ "/info") = some api := by
  have huri : ("api://" ++ n ++ "/info").data
      = ['a', 'p', 'i', ':', '/', '/'] ++ (n.data ++ '/' :: "info".data) := by
    rw [String.data_append, String.data_append, List.append_assoc]
  have hcount : countChar '/' (n.data ++ '/' :: "info".data) ≤ 1 := by
    rw [countChar_append, countChar_eq_zero '/' n.data hn]
    have h1 : countChar '/' ('/' :: "info".data) = 1 := by decide
    omega
  unfold readTarget
  rw [apiPat_data, huri,
    if_pos (startsWithCL_append ['a', 'p', 'i', ':', '/', '/'] (n.data ++ '/' :: "info".data)),
    replaceFrom_api_prefix [] (n.data ++ '/' :: "info".data) hcount, List.nil_append,
    splitOnChar_append '/' n.data "info".data hn,
    splitOnChar_no_sep '/' "info".data (by decide)]
  show (if "info".data = "info".data then alookup reg (String.mk n.data) else none) = some api
  rw [if_pos rfl, string_mk_data n, hreg]

/-- C7 amended: for every registry and every uri, the read-resource handler
succeeds exactly when the uri satisfies the amended condition (`readTarget`:
starts with `api://`, and after deleting every occurrence of `api://` and
splitting on `/` there are at least two components, the second equal to
`info`, the first registered), in which case it returns the pretty-printed
`{name, base_url, endpoints}` object of the matched definition; every other
uri fails with `ValueError("Unknown resource: <uri>")`.  In particular
`api://<name>/info` succeeds for every registered slash-free `<name>`, and
components trailing `/info` are ignored. -/
theorem c7_read_resource_amended (reg : Registry) (uri n : String) (api : APIEndpoint)
    (hreg : alookup reg n = some api) (hn : '/' ∉ n.data) :
    (∀ api2, readTarget reg uri = some api2 →
        handle_read_resource reg uri = Except.ok (dumpJson 0 (apiInfoJson api2)))
      ∧ (readTarget reg uri = none →
          handle_read_resource reg uri = Except.error ("Unknown resource: " ++ uri))
      ∧ readTarget reg ("api://" ++ n ++ "/info") = some api
      ∧ handle_read_resource reg ("api://" ++ n ++ "/info")
          = Except.ok (dumpJson 0 (apiInfoJson api))
      ∧ handle_read_resource sampleRegistry "api://jsonplaceholder/info/extra"
          = Except.ok (dumpJson 0 (apiInfoJson jsonplaceholderDef)) :=
  ⟨(handle_read_resource_char reg uri).1, (handle_read_resource_char reg uri).2,
    readTarget_exact reg n api hreg hn,
    (handle_read_resource_char reg ("api://" ++ n ++ "/info")).1 api
      (readTarget_exact reg n api hreg hn),
    rfl⟩

/-- Witness for C7 (amended): the registered name `weather_api` and the
unresolvable uri `nope`. -/
theorem c7_read_resource_amended_witness :
    alookup sampleRegistry "weather_api" = some weatherApiDef
      ∧ '/' ∉ ("weather_api" : String).data
      ∧ ((∀ api2, readTarget sampleRegistry "nope" = some api2 →
            handle_read_resource sampleRegistry "nope"
              = Except.ok (dumpJson 0 (apiInfoJson api2)))
          ∧ (readTarget sampleRegistry "nope" = none →
              handle_read_resource sampleRegistry "nope"
                = Except.error ("Unknown resource: " ++ "nope"))
          ∧ readTarget sampleRegistry ("api://" ++ "weather_api" ++ "/info")
              = some weatherApiDef
          ∧ handle_read_resource sampleRegistry ("api://" ++ "weather_api" ++ "/info")
              = Except.ok (dumpJson 0 (apiInfoJson weatherApiDef))
          ∧ handle_read_resource sampleRegistry "api://jsonplaceholder/info/extra"
              = Except.ok (dumpJson 0 (apiInfoJson jsonplaceholderDef))) :=
  ⟨rfl, by decide,
    c7_read_resource_amended sampleRegistry "nope" "weather_api" weatherApiDef rfl (by decide)⟩

end MCPApi
